/-
Verification development for the batch transcription pipeline of
`batch_transcribe_to_pdf_1.py` (repository Transcribe-Videos).

The Python source is shallowly embedded: pure helpers become Lean
functions over `String`/`List Char`; the filesystem, the ffmpeg
subprocess, the Deepgram client and the fpdf renderer are abstracted
into an explicit environment (`Env`, `FontEnv`) whose oracles say, for
each file, whether the corresponding external operation succeeds and
what the transcription service returns.  Fallible code paths return
`Except PyErr`.  Each definition carries the line numbers of the code
it embeds.
-/
import Mathlib

namespace BatchTranscribe

/-! ### Python string primitives

Small executable models of the Python `str`/`pathlib` operations the
script uses.  They are restricted to the character repertoire that can
actually reach them here (ASCII whitespace, code-point comparison),
which agrees with CPython on all inputs the script manipulates. -/

/-- Python `str.isspace` characters, ASCII fragment (what `str.strip()`
strips).  The Unicode space class is irrelevant here: `clean_filename`
filters its input before stripping, and transcripts only meet `strip`
through emptiness tests. -/
def pyIsSpace (c : Char) : Bool :=
  c = ' ' || c = '\t' || c = '\n' || c = '\x0b' || c = '\x0c' || c = '\r'

/-- Python `s.strip()` on a character list: drop whitespace from both ends. -/
def pyStripChars (cs : List Char) : List Char :=
  ((cs.dropWhile pyIsSpace).reverse.dropWhile pyIsSpace).reverse

/-- Python `s.strip()`. -/
def pyStrip (s : String) : String :=
  (pyStripChars s.toList).asString

/-- Python `s.replace(c, rep)` for a one-character pattern `c` (the only
form the script uses): every occurrence of `c` becomes `rep`. -/
def replaceCharList (c : Char) (rep : List Char) : List Char → List Char
  | [] => []
  | x :: rest => (if x = c then rep else [x]) ++ replaceCharList c rep rest

/-- Python `s.replace(c, rep)` on strings, one-character pattern. -/
def pyReplaceChar (s : String) (c : Char) (rep : String) : String :=
  (replaceCharList c rep.toList s.toList).asString

/-- Python `s.lower()` (ASCII fragment; file extensions are ASCII). -/
def pyLower (s : String) : String :=
  (s.toList.map Char.toLower).asString

/-- Lexicographic comparison of character lists by code point — the
order Python uses to compare strings (and hence same-directory `Path`s). -/
def lexLe : List Char → List Char → Bool
  | [], _ => true
  | _ :: _, [] => false
  | a :: as, b :: bs =>
    if a.toNat = b.toNat then lexLe as bs else Nat.blt a.toNat b.toNat

/-- Python `a <= b` on strings (code-point lexicographic). -/
def strLe (a b : String) : Bool := lexLe a.toList b.toList

/-- Substring test on character lists. -/
def hasSubAux (pat : List Char) : List Char → Bool
  | [] => pat.isEmpty
  | c :: rest => pat.isPrefixOf (c :: rest) || hasSubAux pat rest

/-- Python `needle in haystack` on strings (substring test, used by
`'Helvetica' in header_font[0]`, line 168 etc.). -/
def strHasSub (needle haystack : String) : Bool :=
  hasSubAux needle.toList haystack.toList

/-- Python `str.splitlines()` restricted to the line breaks that occur
here (`\n`, `\r`, `\r\n`): split into lines, no trailing empty line. -/
def pySplitlinesAux : List Char → List Char → List (List Char)
  | [], acc => if acc.isEmpty then [] else [acc.reverse]
  | '\r' :: '\n' :: rest, acc => acc.reverse :: pySplitlinesAux rest []
  | '\n' :: rest, acc => acc.reverse :: pySplitlinesAux rest []
  | '\r' :: rest, acc => acc.reverse :: pySplitlinesAux rest []
  | c :: rest, acc => pySplitlinesAux rest (c :: acc)

/-- Python `text.splitlines()` (line 187). -/
def pySplitlines (s : String) : List String :=
  (pySplitlinesAux s.toList []).map List.asString

/-- Index of the last `'.'` in a character list, if any. -/
def lastDotIdx : List Char → Option Nat
  | [] => Option.none
  | c :: rest =>
    match lastDotIdx rest with
    | Option.some i => Option.some (i + 1)
    | Option.none => if c = '.' then Option.some 0 else Option.none

/-- `pathlib.PurePath.suffix` of a file name: the final `'.'`-separated
extension including the dot, empty when the last dot is leading or
trailing. -/
def pySuffix (name : String) : String :=
  let cs := name.toList
  match lastDotIdx cs with
  | Option.some i => if 0 < i ∧ i < cs.length - 1 then (cs.drop i).asString else ""
  | Option.none => ""

/-- `pathlib.PurePath.stem` of a file name: the name without its suffix. -/
def pyStem (name : String) : String :=
  let cs := name.toList
  match lastDotIdx cs with
  | Option.some i => if 0 < i ∧ i < cs.length - 1 then (cs.take i).asString else name
  | Option.none => name

/-- Python `str.isalnum`, restricted to ASCII (CPython's predicate is
Unicode-aware; the two agree on every ASCII character, and the claims
are stated uniformly in the predicate, see `clean_filename`). -/
def pyIsAlnum (c : Char) : Bool := c.isAlphanum

/-! ### `clean_filename` (source lines 118–120) -/

/-- Lines 118–120: keep characters that are alphanumeric or one of
space, hyphen, underscore, dot; strip; replace spaces with
underscores.  Parametrised by the `isalnum` predicate so that theorems
quantify over any faithful model of Python's Unicode `isalnum`. -/
def clean_filename (isalnum : Char → Bool) (name : String) : String :=
  let safe := name.toList.filter fun ch =>
    isalnum ch || ch = ' ' || ch = '-' || ch = '_' || ch = '.'
  ((pyStripChars safe).map fun c => if c = ' ' then '_' else c).asString

/-! ### `_sanitize_for_core_fonts` (source lines 35–46) -/

/-- Lines 35–46: fixed substitutions for typographic punctuation (each
pattern is a single character), then `encode('latin-1', 'replace')`:
any character above U+00FF becomes `'?'`. -/
def sanitize_for_core_fonts (s : String) : String :=
  let cs := s.toList
  let cs := replaceCharList '—' ['-'] cs
  let cs := replaceCharList '–' ['-'] cs
  let cs := replaceCharList '…' ['.', '.', '.'] cs
  let cs := replaceCharList '“' ['\"'] cs
  let cs := replaceCharList '”' ['\"'] cs
  let cs := replaceCharList '‘' ['\x27'] cs
  let cs := replaceCharList '’' ['\x27'] cs
  let cs := replaceCharList '\u00A0' [' '] cs
  let cs := replaceCharList '\u200B' [] cs
  (cs.map fun c => if c.toNat ≤ 255 then c else '?').asString

/-! ### Response values and `extract_transcript_from_response`
(source lines 197–226) -/

/-- A generic Python value, the shape of Deepgram's structured
response (`response.to_dict()`). -/
inductive PyVal where
  | none
  | str (s : String)
  | num (n : Int)
  | list (xs : List PyVal)
  | dict (kvs : List (String × PyVal))

/-- Python truthiness of a `PyVal` (used by the `or` chain, line 220). -/
def pyTruthy : PyVal → Bool
  | PyVal.none => false
  | PyVal.str s => !s.isEmpty
  | PyVal.num n => n ≠ 0
  | PyVal.list xs => !xs.isEmpty
  | PyVal.dict kvs => !kvs.isEmpty

/-- Python `v[k]` for a string key: `KeyError`/`TypeError` (modelled as
`Except.error`) unless `v` is a dict containing `k`. -/
def pySubscriptKey (v : PyVal) (k : String) : Except Unit PyVal :=
  match v with
  | PyVal.dict kvs =>
    match kvs.lookup k with
    | Option.some x => Except.ok x
    | Option.none => Except.error ()
  | _ => Except.error ()

/-- Python `v[i]` for an index: error unless `v` is a list with an
`i`-th element.  (A string would yield a one-character string in
CPython; the chain then fails on the following string key anyway, so
the overall `try` outcome is identical.) -/
def pySubscriptIdx (v : PyVal) (i : Nat) : Except Unit PyVal :=
  match v with
  | PyVal.list xs =>
    match xs.get? i with
    | Option.some x => Except.ok x
    | Option.none => Except.error ()
  | _ => Except.error ()

/-- Python `v.get(k, default)`: `AttributeError` (error) when `v` is
not a dict. -/
def pyGet (v : PyVal) (k : String) (default : PyVal) : Except Unit PyVal :=
  match v with
  | PyVal.dict kvs =>
    Except.ok (match kvs.lookup k with
      | Option.some x => x
      | Option.none => default)
  | _ => Except.error ()

/-- Line 219: `data["results"]["channels"][0]["alternatives"][0]`. -/
def altLookup (data : PyVal) : Except Unit PyVal := do
  let res ← pySubscriptKey data "results"
  let ch ← pySubscriptKey res "channels"
  let c0 ← pySubscriptIdx ch 0
  let alts ← pySubscriptKey c0 "alternatives"
  pySubscriptIdx alts 0

/-- Lines 218–221, the body of the `try`: locate the first
channel/alternative, prefer the paragraph transcript over the flat one
(Python `or`, by truthiness), read the confidence.  Any exception
anywhere in the block is the `Except.error` case. -/
def tryExtract (data : PyVal) : Except Unit (PyVal × PyVal) := do
  let alt ← altLookup data
  let paras ← pyGet alt "paragraphs" (PyVal.dict [])
  let pt ← pyGet paras "transcript" PyVal.none
  let ft ← pyGet alt "transcript" (PyVal.str "")
  let conf ← pyGet alt "confidence" PyVal.none
  Except.ok (if pyTruthy pt then pt else if pyTruthy ft then ft else PyVal.str "", conf)

/-- The raw object returned by the Deepgram SDK call, as seen by
`extract_transcript_from_response`: either `to_dict()` succeeds
(SDK model object), or it fails but the object is dict-like
(`hasattr(response_obj, 'keys')`), or neither. -/
inductive ResponseObj where
  | withToDict (d : PyVal)
  | dictLike (d : PyVal)
  | other

/-- Lines 197–226: returns `(transcript, full_json, confidence)`.
Total by construction — every internal exception is caught, exactly as
in the source.  The transcript is kept as a `PyVal` because Python
would happily return a non-string found under the `transcript` key. -/
def extract_transcript_from_response (r : ResponseObj) : PyVal × PyVal × PyVal :=
  match r with
  | ResponseObj.other =>
    (PyVal.str "[Error: Could not process response object]", PyVal.dict [], PyVal.none)
  | ResponseObj.withToDict d =>
    match tryExtract d with
    | Except.ok (t, c) => (t, d, c)
    | Except.error _ => (PyVal.str "", d, PyVal.none)
  | ResponseObj.dictLike d =>
    match tryExtract d with
    | Except.ok (t, c) => (t, d, c)
    | Except.error _ => (PyVal.str "", d, PyVal.none)

/-! ### `to_pdf` (source lines 123–196)

The fpdf object is abstracted to the list of fragments written to the
document: `cell` (one-line text), `multi_cell` (wrapped text) and
`ln` (vertical spacing).  Font sizes/styles do not change the written
text and are tracked only through the font family, exactly as the code
does via `'Helvetica' in font[0]`. -/

/-- What the renderer writes to the document. -/
inductive Frag where
  | cell (s : String)
  | multiCell (s : String)
  | vspace
deriving DecidableEq

/-- The renderer's environment: the result of
`_find_unicode_font_paths()` (lines 50–85, a filesystem search),
whether `pdf.add_font` succeeds (the `try` of lines 145–154), the
`Path(bold_ttf).exists()` check of line 147, and `datetime.now`
formatted as in line 173. -/
structure FontEnv where
  found : Option (String × Option String)
  addFontOk : Bool
  boldPathExists : String → Bool
  now : String

/-- Lines 123–196, `to_pdf`: resolve fonts, then write header (unless
`minimal`) and body.  Returns the fragments written, in order. -/
def to_pdf (fe : FontEnv) (text title : String) (meta : Option String)
    (font_regular font_bold : Option String) (minimal : Bool) : List Frag :=
  -- lines 135–141: prefer caller-supplied font paths
  let reg0 : Option String := match fe.found with
    | Option.some (r, _) => Option.some r
    | Option.none => Option.none
  let auto_bold : Option String := match fe.found with
    | Option.some (_, b) => b
    | Option.none => Option.none
  let reg_ttf := match font_regular with
    | Option.some r => Option.some r
    | Option.none => reg0
  let bold_ttf := match font_bold with
    | Option.some b => Option.some b
    | Option.none => auto_bold
  -- lines 143–162: register the unicode font or fall back to core fonts
  let coreFonts : (String × String × Nat) × (String × String × Nat) × (String × String × Nat) :=
    (("Helvetica", "B", 16), ("Helvetica", "", 12), ("Helvetica", "", 10))
  let fonts :=
    match reg_ttf with
    | Option.some _ =>
      if fe.addFontOk then
        match bold_ttf with
        | Option.some b =>
          if fe.boldPathExists b then
            (("U", "B", 16), ("U", "", 12), ("U", "", 10))
          else
            (("U", "", 16), ("U", "", 12), ("U", "", 10))
        | Option.none => (("U", "", 16), ("U", "", 12), ("U", "", 10))
      else coreFonts
    | Option.none => coreFonts
  let header_font := fonts.1
  let body_font := fonts.2.1
  let meta_font := fonts.2.2
  -- lines 164–183: header block
  let header : List Frag :=
    if minimal then []
    else
      let title_safe := pyReplaceChar (pyReplaceChar title '—' "-") '–' "-"
      let title_safe :=
        if strHasSub "Helvetica" header_font.1 then sanitize_for_core_fonts title_safe
        else title_safe
      let gen_line := "Generated: " ++ fe.now
      let gen_line :=
        if strHasSub "Helvetica" meta_font.1 then sanitize_for_core_fonts gen_line
        else gen_line
      let metaFrag : List Frag :=
        match meta with
        | Option.some info =>
          let info_line :=
            if strHasSub "Helvetica" meta_font.1 then sanitize_for_core_fonts info
            else info
          [Frag.multiCell ("Info: " ++ info_line)]
        | Option.none => []
      [Frag.cell title_safe, Frag.cell gen_line] ++ metaFrag ++ [Frag.vspace]
  -- lines 186–194: body
  let body : List Frag := (pySplitlines text).map fun line =>
    let out :=
      if strHasSub "Helvetica" body_font.1 then sanitize_for_core_fonts line
      else line
    if (pyStripChars out.toList).isEmpty then Frag.vspace else Frag.multiCell out
  header ++ body

/-- Whether `to_pdf` ends up on the core-font fallback: no unicode font
was resolved, or registering the resolved one failed (lines 143–157). -/
def to_pdf_usesCore (fe : FontEnv) (font_regular : Option String) : Bool :=
  match (match font_regular with
         | Option.some r => Option.some r
         | Option.none =>
           match fe.found with
           | Option.some (r, _) => Option.some r
           | Option.none => Option.none) with
  | Option.some _ => !fe.addFontOk
  | Option.none => true

/-- Written from the spec's words (amended for C4): the document is
the header block (unless minimal) followed by the body lines; a
fragment is sanitised exactly when the core fallback is in use
(`san`), except that the title always has em/en dashes replaced by
`'-'` first; whitespace-only output lines become vertical spacing. -/
def to_pdf_amended_spec (san : Bool) (now text title : String) (meta : Option String)
    (minimal : Bool) : List Frag :=
  let f : String → String := fun s => if san then sanitize_for_core_fonts s else s
  let header : List Frag :=
    if minimal then []
    else
      [Frag.cell (f (pyReplaceChar (pyReplaceChar title '—' "-") '–' "-")),
       Frag.cell (f ("Generated: " ++ now))] ++
      (match meta with
       | Option.some info => [Frag.multiCell ("Info: " ++ f info)]
       | Option.none => []) ++ [Frag.vspace]
  header ++ (pySplitlines text).map fun line =>
    let out := f line
    if (pyStripChars out.toList).isEmpty then Frag.vspace else Frag.multiCell out

/-! ### The batch orchestrator `process_videos` (source lines 254–357) -/

/-- Line 90. -/
def VIDEO_EXTS : List String :=
  [".mp4", ".mov", ".mkv", ".avi", ".mpg", ".mpeg", ".m4v", ".webm"]

/-- Line 91. -/
def AUDIO_EXTS : List String :=
  [".wav", ".mp3", ".m4a", ".aac", ".flac", ".ogg", ".opus", ".wma"]

/-- An immediate entry of the source directory: its file name and
whether it is a regular file (`p.is_file()`). -/
structure FileEntry where
  name : String
  isFile : Bool
deriving DecidableEq

/-- The path submitted to transcription: the original source file, or
the temporary WAV extracted from it (whose name ffmpeg derives from
the stem, line 105). -/
inductive SubmitPath where
  | original (name : String)
  | extracted (stem : String)
deriving DecidableEq

/-- One `log_callback` line, by source line:
295 `ffmpegWarning`, 299 `noFiles`, 302 `found`, 311 `skipping`,
314 `processing`, 323 `audioExtracted`, 325 `extractionFailed`,
331 `transcriptionError`, 353 `pdfWriteFailed`, 355 `saved`,
357 `finished`. -/
inductive Msg where
  | ffmpegWarning
  | noFiles
  | found (n : Nat)
  | skipping (idx total : Nat) (name : String)
  | processing (idx total : Nat) (name : String)
  | audioExtracted (wavName : String)
  | extractionFailed (name : String)
  | transcriptionError
  | pdfWriteFailed
  | saved (stem : String)
  | finished
deriving DecidableEq

/-- An uncaught Python exception escaping `process_videos`. -/
inductive PyErr where
  | fileNotFound
  | ioError
  | attributeError
deriving DecidableEq

/-- Content of the structured-payload artifact: either
`json.dump(full_json, ..., ensure_ascii=False, indent=2)` of the full
payload (line 341) or, after a serialization failure, `str(response)`
(line 344). -/
inductive JsonArt where
  | dumped (payload : PyVal)
  | strRepr (resp : ResponseObj)

/-- The three artifact stores, keyed by the sanitized stem (the
directories are fixed for a whole run, so a stem determines each
artifact's path — see `txt_path`/`json_path`/`pdf_path`).  A write
prepends; `lookup` sees the newest value. -/
structure FS where
  txt : List (String × String)
  json : List (String × JsonArt)
  pdf : List (String × List Frag)

def FS.setTxt (fs : FS) (k : String) (v : String) : FS :=
  ⟨(k, v) :: fs.txt, fs.json, fs.pdf⟩

def FS.setJson (fs : FS) (k : String) (v : JsonArt) : FS :=
  ⟨fs.txt, (k, v) :: fs.json, fs.pdf⟩

def FS.setPdf (fs : FS) (k : String) (v : List Frag) : FS :=
  ⟨fs.txt, fs.json, (k, v) :: fs.pdf⟩

/-- Line 310: `txt_path.exists() and pdf_path.exists() and json_path.exists()`. -/
def hasAllArtifacts (fs : FS) (stem : String) : Bool :=
  (fs.txt.lookup stem).isSome && (fs.pdf.lookup stem).isSome && (fs.json.lookup stem).isSome

/-- The run's environment: the source directory (existence, kind,
immediate entries), the `has_ffmpeg()` probe, and per-file oracles for
each external operation: does the ffmpeg extraction exit zero, what
does the Deepgram call return (`none` = the call raised), does each
file write / `json.dump` / pdf render succeed. -/
structure Env where
  inDirExists : Bool
  inDirIsDir : Bool
  entries : List FileEntry
  ffmpegOk : Bool
  extractOk : String → Bool
  transcribe : SubmitPath → Option ResponseObj
  jsonDumpOk : String → Bool
  jsonFallbackOk : String → Bool
  txtWriteOk : String → Bool
  pdfOk : String → Bool
  fontEnv : FontEnv

/-- The immutable per-run configuration (the keyword arguments of
`process_videos`, lines 254–268, minus the directories, which are
absorbed into `FS`'s keying). -/
structure Job where
  language : Option String
  model : String
  overwrite : Bool
  pdfMinimal : Bool
  fontRegular : Option String
  fontBold : Option String

/-- Line 317: `src.suffix.lower() in VIDEO_EXTS`. -/
def isVideoFile (src : FileEntry) : Bool :=
  VIDEO_EXTS.contains (pyLower (pySuffix src.name))

/-- Python's `sorted` is a stable sort by `<=`; so is insertion sort. -/
def fileLe (a b : FileEntry) : Prop := strLe a.name b.name = true

instance : DecidableRel fileLe := fun a b => Bool.decEq (strLe a.name b.name) true

/-- Line 297: list the immediate entries, keep regular files whose
lower-cased suffix is in the allow-lists, sort by path. -/
def discoverFiles (entries : List FileEntry) : List FileEntry :=
  List.insertionSort fileLe (entries.filter fun p =>
    p.isFile && (VIDEO_EXTS ++ AUDIO_EXTS).contains (pyLower (pySuffix p.name)))

/-- Line 305: `stem = clean_filename(src.stem)`. -/
def stemOf (src : FileEntry) : String :=
  clean_filename pyIsAlnum (pyStem src.name)

/-- Lines 306–308: the three destination paths. -/
def txt_path (txtDir stem : String) : String := txtDir ++ "/" ++ stem ++ ".txt"

def json_path (jsonDir stem : String) : String := jsonDir ++ "/" ++ stem ++ ".deepgram.json"

def pdf_path (pdfDir stem : String) : String := pdfDir ++ "/" ++ stem ++ ".pdf"

/-- Line 337, the fixed placeholder. -/
def placeholderText : String :=
  "[Transcripción vacía]\n(Revisa el archivo .deepgram.json para ver la respuesta completa.)"

/-- Best-effort `str(v)` for the confidence in the metadata line
(decorative only; reaching values are numbers or `None`). -/
def pyFormatVal : PyVal → String
  | PyVal.none => "None"
  | PyVal.str s => s
  | PyVal.num n => toString n
  | PyVal.list _ => "<list>"
  | PyVal.dict _ => "<dict>"

/-- Line 349: the metadata line; `language or 'auto'` is Python
truthiness (both `None` and `""` give `"auto"`). -/
def metaInfoStr (job : Job) (conf : PyVal) : String :=
  "Model=" ++ job.model ++ " | Language=" ++
    (match job.language with
     | Option.some l => if l.isEmpty then "auto" else l
     | Option.none => "auto") ++
    " | Confidence=" ++ (match conf with
     | PyVal.none => "n/a"
     | c => pyFormatVal c)

/-- Lines 316–326: choose the path submitted to transcription.  For a
video with ffmpeg available, try the extraction; a non-zero exit
(`CalledProcessError`, the only exception the code catches there)
falls back to the original file.  Returns the chosen path and the log
lines emitted. -/
def resolveUsePath (env : Env) (isVideo : Bool) (src : FileEntry) : SubmitPath × List Msg :=
  if isVideo && env.ffmpegOk then
    if env.extractOk src.name then
      (SubmitPath.extracted (pyStem src.name), [Msg.audioExtracted (pyStem src.name ++ ".wav")])
    else
      (SubmitPath.original src.name, [Msg.extractionFailed src.name])
  else (SubmitPath.original src.name, [])

/-- Lines 339–344: `json.dump` the full payload; if that raises, write
`str(response)` instead; if the fallback write itself raises, the
exception propagates (it is outside any handler). -/
def writeJsonStep (env : Env) (src : FileEntry) (full : PyVal) (resp : ResponseObj)
    (fs : FS) (stem : String) : Except PyErr FS :=
  if env.jsonDumpOk src.name then Except.ok (fs.setJson stem (JsonArt.dumped full))
  else if env.jsonFallbackOk src.name then Except.ok (fs.setJson stem (JsonArt.strRepr resp))
  else Except.error PyErr.ioError

/-- Lines 339–355: persist the structured payload, the plain text
(line 346, unguarded: a failure here propagates) and the rendered
document (lines 350–353, failure logged and swallowed), then log the
per-file completion line (line 355). -/
def persistArtifacts (env : Env) (job : Job) (idx total : Nat) (src : FileEntry)
    (fs : FS) (extractLogs : List Msg) (resp : ResponseObj) (transcript_text : String) :
    Except PyErr (FS × List Msg) :=
  match writeJsonStep env src (extract_transcript_from_response resp).2.1 resp fs (stemOf src) with
  | Except.error e => Except.error e
  | Except.ok fs1 =>
    if env.txtWriteOk src.name then
      let fs2 := fs1.setTxt (stemOf src) transcript_text
      if env.pdfOk src.name then
        Except.ok
          (fs2.setPdf (stemOf src)
            (to_pdf env.fontEnv transcript_text ("Transcripción - " ++ pyStem src.name)
              (Option.some (metaInfoStr job (extract_transcript_from_response resp).2.2))
              job.fontRegular job.fontBold job.pdfMinimal),
           Msg.processing idx total src.name :: extractLogs ++ [Msg.saved (stemOf src)])
      else
        Except.ok (fs2,
          Msg.processing idx total src.name :: extractLogs ++ [Msg.pdfWriteFailed, Msg.saved (stemOf src)])
    else Except.error PyErr.ioError

/-- Lines 334–337: unpack the extraction result; `transcript_text.strip()`
raises `AttributeError` (uncaught) when the extracted transcript is not
a string; an empty-or-whitespace transcript becomes the placeholder. -/
def afterResponse (env : Env) (job : Job) (idx total : Nat) (src : FileEntry)
    (fs : FS) (extractLogs : List Msg) (resp : ResponseObj) : Except PyErr (FS × List Msg) :=
  match (extract_transcript_from_response resp).1 with
  | PyVal.str t0 =>
    persistArtifacts env job idx total src fs extractLogs resp
      (if (pyStripChars t0.toList).isEmpty then placeholderText else t0)
  | _ => Except.error PyErr.attributeError

/-- Lines 314–355, the non-skip part of one loop iteration: log the
processing line, choose the submission path, call the service (a raised
transcription error is logged and the loop continues, lines 330–332),
then persist. -/
def processBody (env : Env) (job : Job) (idx total : Nat) (src : FileEntry) (fs : FS) :
    Except PyErr (FS × List Msg) :=
  let rp := resolveUsePath env (isVideoFile src) src
  match env.transcribe rp.1 with
  | Option.none =>
    Except.ok (fs, Msg.processing idx total src.name :: rp.2 ++ [Msg.transcriptionError])
  | Option.some resp => afterResponse env job idx total src fs rp.2 resp

/-- Lines 304–355, one loop iteration: skip when overwrite is off and
all three artifacts exist (lines 310–312), otherwise process. -/
def processOne (env : Env) (job : Job) (idx total : Nat) (src : FileEntry) (fs : FS) :
    Except PyErr (FS × List Msg) :=
  if !job.overwrite && hasAllArtifacts fs (stemOf src) then
    Except.ok (fs, [Msg.skipping idx total src.name])
  else processBody env job idx total src fs

/-- The `for` loop of lines 304–357 plus the terminal log line 357:
iterate in order, abort on an uncaught exception, finish with the
completion message. -/
def processFiles (env : Env) (job : Job) : List FileEntry → Nat → Nat → FS →
    Except PyErr (FS × List Msg)
  | [], _, _, fs => Except.ok (fs, [Msg.finished])
  | src :: rest, idx, total, fs =>
    match processOne env job idx total src fs with
    | Except.error e => Except.error e
    | Except.ok (fs1, logs1) =>
      match processFiles env job rest (idx + 1) total fs1 with
      | Except.error e => Except.error e
      | Except.ok (fs2, logs2) => Except.ok (fs2, logs1 ++ logs2)

/-- Lines 254–357, `process_videos`: raise `FileNotFoundError` when the
source directory is missing or not a directory (lines 285–286), warn
when ffmpeg is absent (lines 293–295), discover the files (line 297),
return early when none were found (lines 298–300), otherwise run the
loop and the terminal message. -/
def process_videos (env : Env) (job : Job) (fs : FS) : Except PyErr (FS × List Msg) :=
  if !(env.inDirExists && env.inDirIsDir) then Except.error PyErr.fileNotFound
  else
    let warnLogs := if env.ffmpegOk then [] else [Msg.ffmpegWarning]
    let files := discoverFiles env.entries
    if files.isEmpty then Except.ok (fs, warnLogs ++ [Msg.noFiles])
    else
      match processFiles env job files 1 files.length fs with
      | Except.error e => Except.error e
      | Except.ok (fs1, logs) =>
        Except.ok (fs1, warnLogs ++ Msg.found files.length :: logs)

/-! ### Helper lemmas -/

theorem mem_of_mem_pyStripChars {c : Char} {cs : List Char} (h : c ∈ pyStripChars cs) :
    c ∈ cs := by
  unfold pyStripChars at h
  rw [List.mem_reverse] at h
  have h2 := (List.dropWhile_sublist pyIsSpace).mem h
  rw [List.mem_reverse] at h2
  exact (List.dropWhile_sublist pyIsSpace).mem h2

theorem strHasSub_helv_core : strHasSub "Helvetica" "Helvetica" = true := by decide

theorem strHasSub_helv_u : strHasSub "Helvetica" "U" = false := by decide

theorem lookup_cons_self {β : Type} (l : List (String × β)) (k : String) (v : β) :
    ((k, v) :: l).lookup k = Option.some v := by
  simp [List.lookup]

theorem lookup_cons_preserve {β : Type} {l : List (String × β)} {k : String}
    (k' : String) (v : β) (h : (l.lookup k).isSome = true) :
    (((k', v) :: l).lookup k).isSome = true := by
  by_cases hk : k == k'
  · simp [List.lookup, hk]
  · simp only [List.lookup, hk]
    exact h

/-! ### Claim C5: clean_filename output character set -/

/-- C5: for every input filename and any model of Python's `isalnum`,
every character of `clean_filename`'s output is alphanumeric or one of
hyphen, underscore, dot — disallowed characters are removed, spaces
become underscores, and in particular no space survives. -/
theorem clean_filename_charset (isalnum : Char → Bool) (name : String) (c : Char)
    (hc : c ∈ (clean_filename isalnum name).toList) :
    (isalnum c = true ∨ c = '-' ∨ c = '_' ∨ c = '.') ∧ c ≠ ' ' := by
  unfold clean_filename at hc
  obtain ⟨c', hc', rfl⟩ := List.mem_map.mp hc
  have hsafe := mem_of_mem_pyStripChars hc'
  have hpred := (List.mem_filter.mp hsafe).2
  simp only [Bool.or_eq_true, decide_eq_true_eq] at hpred
  by_cases hsp : c' = ' '
  · subst hsp
    simp only [if_pos rfl]
    exact ⟨Or.inr (Or.inr (Or.inl rfl)), by decide⟩
  · simp only [if_neg hsp]
    rcases hpred with (((hal | hsp2) | hh) | hu) | hd
    · exact ⟨Or.inl hal, hsp⟩
    · exact absurd hsp2 hsp
    · exact ⟨Or.inr (Or.inl hh), hsp⟩
    · exact ⟨Or.inr (Or.inr (Or.inl hu)), hsp⟩
    · exact ⟨Or.inr (Or.inr (Or.inr hd)), hsp⟩

/-- Witness for C5 at a concrete input: `clean_filename "a b" = "a_b"`,
whose underscore (produced from the space) satisfies the character-set
property. -/
theorem clean_filename_charset_witness :
    '_' ∈ (clean_filename pyIsAlnum "a b").toList ∧
      ((pyIsAlnum '_' = true ∨ '_' = '-' ∨ '_' = '_' ∨ '_' = '.') ∧ '_' ≠ ' ') :=
  ⟨by decide, clean_filename_charset pyIsAlnum "a b" '_' (by decide)⟩

/-! ### Claim C3: extraction fallback -/

/-- C3 counterexample: a response object that is neither convertible
via `to_dict` nor dict-like lacks the expected nested shape, yet the
extractor returns the fixed error string, not the empty string
(lines 211–213). -/
theorem extract_other_not_empty :
    (extract_transcript_from_response ResponseObj.other).1 =
      PyVal.str "[Error: Could not process response object]" ∧
    PyVal.str "[Error: Could not process response object]" ≠ PyVal.str "" := by
  refine ⟨rfl, fun h => ?_⟩
  injection h with h'
  exact absurd h' (by decide)

/-- C3 amended: the extractor is total (it returns on every response);
whenever the response converts to (or is) a mapping whose shape lookup
fails, the transcript is the empty string with no confidence; a
response that is neither convertible nor dict-like yields the fixed
error string instead — still without raising. -/
theorem extraction_fallback (d : PyVal) (h : tryExtract d = Except.error ()) :
    extract_transcript_from_response (ResponseObj.withToDict d) = (PyVal.str "", d, PyVal.none) ∧
    extract_transcript_from_response (ResponseObj.dictLike d) = (PyVal.str "", d, PyVal.none) ∧
    extract_transcript_from_response ResponseObj.other =
      (PyVal.str "[Error: Could not process response object]", PyVal.dict [], PyVal.none) := by
  refine ⟨?_, ?_, rfl⟩ <;> simp [extract_transcript_from_response, h]

/-- Witness for C3 at the concrete shapeless response `{}`. -/
theorem extraction_fallback_witness :
    tryExtract (PyVal.dict []) = Except.error () ∧
    extract_transcript_from_response (ResponseObj.withToDict (PyVal.dict [])) =
      (PyVal.str "", PyVal.dict [], PyVal.none) :=
  ⟨rfl, (extraction_fallback (PyVal.dict []) rfl).1⟩

/-! ### Claim C4: renderer sanitization -/

/-- A font environment in which a Unicode font is resolved and
registration succeeds. -/
def fontEnvC4 : FontEnv :=
  ⟨Option.some ("DejaVuSans.ttf", Option.none), true, fun _ => true, "2024-01-01"⟩

/-- C4 counterexample: with a Unicode font resolved and successfully
registered, a title containing an em dash is still modified before
being written (line 167 replaces em/en dashes unconditionally), so not
every fragment is written unmodified. -/
theorem to_pdf_unicode_title_modified :
    to_pdf_usesCore fontEnvC4 Option.none = false ∧
    (to_pdf fontEnvC4 "x" "A—B" Option.none Option.none Option.none false).head? =
      Option.some (Frag.cell "A-B") ∧
    ("A-B" : String) ≠ "A—B" :=
  ⟨rfl, rfl, by decide⟩

/-- C4 amended: the document equals the spec-side description in which
every fragment is passed through the sanitization step exactly when
the core-font fallback is in use, and is otherwise written unmodified —
except the title, whose em/en dashes are replaced by `'-'` under either
font. -/
theorem to_pdf_sanitization (fe : FontEnv) (text title : String) (meta : Option String)
    (font_regular font_bold : Option String) (minimal : Bool) :
    to_pdf fe text title meta font_regular font_bold minimal =
      to_pdf_amended_spec (to_pdf_usesCore fe font_regular) fe.now text title meta minimal := by
  obtain ⟨found, addOk, bpe, now⟩ := fe
  unfold to_pdf to_pdf_amended_spec to_pdf_usesCore
  rcases font_regular with _ | r <;>
    rcases found with _ | ⟨fr, fbold⟩ <;>
    rcases addOk with _ | _ <;>
    rcases font_bold with _ | b <;>
    (try rcases fbold with _ | fb) <;>
    (try cases hb : bpe fb) <;>
    (try cases hb2 : bpe b) <;>
    simp [*, strHasSub_helv_core, strHasSub_helv_u]

/-! ### Claim C10: clean_filename is not injective -/

/-- Response whose transcript is `"uno"`. -/
def respUno : ResponseObj :=
  ResponseObj.withToDict (PyVal.dict [("results", PyVal.dict [("channels", PyVal.list
    [PyVal.dict [("alternatives", PyVal.list [PyVal.dict [("transcript", PyVal.str "uno")]])]])])])

/-- Response whose transcript is `"dos"`. -/
def respDos : ResponseObj :=
  ResponseObj.withToDict (PyVal.dict [("results", PyVal.dict [("channels", PyVal.list
    [PyVal.dict [("alternatives", PyVal.list [PyVal.dict [("transcript", PyVal.str "dos")]])]])])])

/-- A benign environment whose source directory holds the two distinct
files `a b.mp4` and `a_b.mp4`; transcription returns `"uno"` for the
first and `"dos"` for the second (ffmpeg is absent, so the originals
are submitted). -/
def envC10 : Env where
  inDirExists := true
  inDirIsDir := true
  entries := [⟨"a b.mp4", true⟩, ⟨"a_b.mp4", true⟩]
  ffmpegOk := false
  extractOk := fun _ => true
  transcribe := fun p =>
    if p = SubmitPath.original "a b.mp4" then Option.some respUno else Option.some respDos
  jsonDumpOk := fun _ => true
  jsonFallbackOk := fun _ => true
  txtWriteOk := fun _ => true
  pdfOk := fun _ => true
  fontEnv := ⟨Option.none, true, fun _ => true, "T"⟩

/-- The job with overwrite disabled. -/
def jobC10skip : Job := ⟨Option.some "es", "nova-3", false, false, Option.none, Option.none⟩

/-- The job with overwrite enabled. -/
def jobC10over : Job := ⟨Option.some "es", "nova-3", true, false, Option.none, Option.none⟩

/-- C10: `clean_filename` is not injective — `a b.mp4` and `a_b.mp4`
are distinct names with the same sanitized stem, hence identical
destination paths for all three artifacts; with overwrite disabled the
later file is skipped because the earlier file's artifacts already
exist (its text artifact holds `"uno"`), and with overwrite enabled
the later file overwrites them (it holds `"dos"`). -/
theorem clean_filename_collision :
    ("a b.mp4" : String) ≠ "a_b.mp4" ∧
    stemOf ⟨"a b.mp4", true⟩ = stemOf ⟨"a_b.mp4", true⟩ ∧
    (∀ d : String,
      txt_path d (stemOf ⟨"a b.mp4", true⟩) = txt_path d (stemOf ⟨"a_b.mp4", true⟩) ∧
      json_path d (stemOf ⟨"a b.mp4", true⟩) = json_path d (stemOf ⟨"a_b.mp4", true⟩) ∧
      pdf_path d (stemOf ⟨"a b.mp4", true⟩) = pdf_path d (stemOf ⟨"a_b.mp4", true⟩)) ∧
    (∃ fs1 logs1, process_videos envC10 jobC10skip ⟨[], [], []⟩ = Except.ok (fs1, logs1) ∧
      fs1.txt.lookup "a_b" = Option.some "uno" ∧
      Msg.skipping 2 2 "a_b.mp4" ∈ logs1) ∧
    (∃ fs2 logs2, process_videos envC10 jobC10over ⟨[], [], []⟩ = Except.ok (fs2, logs2) ∧
      fs2.txt.lookup "a_b" = Option.some "dos") := by
  refine ⟨by decide, rfl, fun d => ⟨rfl, rfl, rfl⟩, ⟨_, _, rfl, rfl, by decide⟩,
    ⟨_, _, rfl, rfl⟩⟩

/-! ### Claims C6, C7, C8: per-file processing properties -/

/-- C6: for a file that is actually processed (not skipped) and whose
plain-text write succeeds, a structured-payload artifact is produced at
its destination: the dumped full payload when `json.dump` succeeds,
and otherwise — when the fallback write goes through — the response's
plain string representation at the same path. -/
theorem json_artifact_produced (env : Env) (job : Job) (idx total : Nat) (src : FileEntry)
    (fs : FS) (resp : ResponseObj) (s : String)
    (hskip : (!job.overwrite && hasAllArtifacts fs (stemOf src)) = false)
    (htr : env.transcribe (resolveUsePath env (isVideoFile src) src).1 = Option.some resp)
    (hs : (extract_transcript_from_response resp).1 = PyVal.str s)
    (htxt : env.txtWriteOk src.name = true) :
    (env.jsonDumpOk src.name = true →
      ∃ fs' logs, processOne env job idx total src fs = Except.ok (fs', logs) ∧
        fs'.json.lookup (stemOf src) =
          Option.some (JsonArt.dumped (extract_transcript_from_response resp).2.1)) ∧
    (env.jsonDumpOk src.name = false → env.jsonFallbackOk src.name = true →
      ∃ fs' logs, processOne env job idx total src fs = Except.ok (fs', logs) ∧
        fs'.json.lookup (stemOf src) = Option.some (JsonArt.strRepr resp)) := by
  constructor
  · intro hjson
    cases hpdf : env.pdfOk src.name <;>
      simp only [processOne, processBody, afterResponse, persistArtifacts, writeJsonStep,
        hskip, htr, hs, htxt, hjson, hpdf, Bool.false_eq_true, if_false, if_true,
        ite_true, ite_false] <;>
      exact ⟨_, _, rfl, by simp [FS.setJson, FS.setTxt, FS.setPdf, lookup_cons_self]⟩
  · intro hjson hfb
    cases hpdf : env.pdfOk src.name <;>
      simp only [processOne, processBody, afterResponse, persistArtifacts, writeJsonStep,
        hskip, htr, hs, htxt, hjson, hfb, hpdf, Bool.false_eq_true, if_false, if_true,
        ite_true, ite_false] <;>
      exact ⟨_, _, rfl, by simp [FS.setJson, FS.setTxt, FS.setPdf, lookup_cons_self]⟩

/-- C7: for a video file, when ffmpeg is unavailable or its extraction
exits non-zero, the original unmodified file is what gets submitted to
transcription, and the file is neither skipped nor fatal: processing
continues and succeeds under the usual per-file conditions. -/
theorem ffmpeg_fallback_original (env : Env) (job : Job) (idx total : Nat) (src : FileEntry)
    (fs : FS)
    (hv : isVideoFile src = true)
    (hf : env.ffmpegOk = false ∨ env.extractOk src.name = false) :
    (resolveUsePath env (isVideoFile src) src).1 = SubmitPath.original src.name ∧
    (∀ resp s, (!job.overwrite && hasAllArtifacts fs (stemOf src)) = false →
      env.transcribe (SubmitPath.original src.name) = Option.some resp →
      (extract_transcript_from_response resp).1 = PyVal.str s →
      env.jsonDumpOk src.name = true →
      env.txtWriteOk src.name = true →
      ∃ fs' logs, processOne env job idx total src fs = Except.ok (fs', logs) ∧
        Msg.processing idx total src.name ∈ logs) := by
  have h1 : (resolveUsePath env (isVideoFile src) src).1 = SubmitPath.original src.name := by
    cases hff : env.ffmpegOk
    · simp [resolveUsePath, hv, hff]
    · rcases hf with hf | hf
      · rw [hf] at hff
        cases hff
      · simp [resolveUsePath, hv, hff, hf]
  refine ⟨h1, fun resp s hskip htr hs hjson htxt => ?_⟩
  rw [← h1] at htr
  cases hpdf : env.pdfOk src.name <;>
    simp only [processOne, processBody, afterResponse, persistArtifacts, writeJsonStep,
      hskip, htr, hs, htxt, hjson, hpdf, Bool.false_eq_true, if_false, if_true,
      ite_true, ite_false] <;>
    exact ⟨_, _, rfl, List.mem_cons_self _ _⟩

/-- C8: when the extracted transcript is empty or whitespace-only, the
text artifact receives the fixed placeholder, and the rendered document
is produced from the placeholder as well. -/
theorem placeholder_substituted (env : Env) (job : Job) (idx total : Nat) (src : FileEntry)
    (fs : FS) (resp : ResponseObj) (s : String)
    (hskip : (!job.overwrite && hasAllArtifacts fs (stemOf src)) = false)
    (htr : env.transcribe (resolveUsePath env (isVideoFile src) src).1 = Option.some resp)
    (hs : (extract_transcript_from_response resp).1 = PyVal.str s)
    (hws : (pyStripChars s.toList).isEmpty = true)
    (hjson : env.jsonDumpOk src.name = true)
    (htxt : env.txtWriteOk src.name = true)
    (hpdf : env.pdfOk src.name = true) :
    ∃ fs' logs, processOne env job idx total src fs = Except.ok (fs', logs) ∧
      fs'.txt.lookup (stemOf src) = Option.some placeholderText ∧
      fs'.pdf.lookup (stemOf src) = Option.some
        (to_pdf env.fontEnv placeholderText ("Transcripción - " ++ pyStem src.name)
          (Option.some (metaInfoStr job (extract_transcript_from_response resp).2.2))
          job.fontRegular job.fontBold job.pdfMinimal) := by
  simp only [processOne, processBody, afterResponse, persistArtifacts, writeJsonStep,
    hskip, htr, hs, hws, htxt, hjson, hpdf, Bool.false_eq_true, if_false, if_true,
    ite_true, ite_false]
  exact ⟨_, _, rfl, by simp [FS.setJson, FS.setTxt, FS.setPdf, lookup_cons_self],
    by simp [FS.setJson, FS.setTxt, FS.setPdf, lookup_cons_self]⟩

/-! ### Shared witness scenario for the per-file claims -/

/-- The empty artifact store. -/
def fsEmpty : FS := ⟨[], [], []⟩

/-- A response whose extracted transcript is the empty string. -/
def respEmptyT : ResponseObj :=
  ResponseObj.withToDict (PyVal.dict [("results", PyVal.dict [("channels", PyVal.list
    [PyVal.dict [("alternatives", PyVal.list [PyVal.dict [("transcript", PyVal.str "")]])]])])])

/-- A concrete witness environment: one video file, ffmpeg missing,
every response's transcript empty, all writes succeed. -/
def envW : Env where
  inDirExists := true
  inDirIsDir := true
  entries := [⟨"v.mp4", true⟩]
  ffmpegOk := false
  extractOk := fun _ => false
  transcribe := fun _ => Option.some respEmptyT
  jsonDumpOk := fun _ => true
  jsonFallbackOk := fun _ => true
  txtWriteOk := fun _ => true
  pdfOk := fun _ => true
  fontEnv := ⟨Option.none, true, fun _ => true, "T"⟩

/-- The default job configuration. -/
def jobW : Job := ⟨Option.some "es", "nova-3", false, false, Option.none, Option.none⟩

/-- Witness for C6 at the concrete scenario. -/
theorem json_artifact_produced_witness :
    (!jobW.overwrite && hasAllArtifacts fsEmpty (stemOf ⟨"v.mp4", true⟩)) = false ∧
    envW.transcribe (resolveUsePath envW (isVideoFile ⟨"v.mp4", true⟩) ⟨"v.mp4", true⟩).1 =
      Option.some respEmptyT ∧
    envW.jsonDumpOk "v.mp4" = true ∧
    (∃ fs' logs, processOne envW jobW 1 1 ⟨"v.mp4", true⟩ fsEmpty = Except.ok (fs', logs) ∧
      fs'.json.lookup (stemOf ⟨"v.mp4", true⟩) =
        Option.some (JsonArt.dumped (extract_transcript_from_response respEmptyT).2.1)) :=
  ⟨rfl, rfl, rfl,
    (json_artifact_produced envW jobW 1 1 ⟨"v.mp4", true⟩ fsEmpty respEmptyT ""
      rfl rfl rfl rfl).1 rfl⟩

/-- Witness for C7 at the concrete scenario. -/
theorem ffmpeg_fallback_original_witness :
    isVideoFile ⟨"v.mp4", true⟩ = true ∧
    envW.ffmpegOk = false ∧
    (resolveUsePath envW (isVideoFile ⟨"v.mp4", true⟩) ⟨"v.mp4", true⟩).1 =
      SubmitPath.original "v.mp4" ∧
    (∃ fs' logs, processOne envW jobW 1 1 ⟨"v.mp4", true⟩ fsEmpty = Except.ok (fs', logs) ∧
      Msg.processing 1 1 "v.mp4" ∈ logs) := by
  have h := ffmpeg_fallback_original envW jobW 1 1 ⟨"v.mp4", true⟩ fsEmpty rfl (Or.inl rfl)
  exact ⟨rfl, rfl, h.1, h.2 respEmptyT "" rfl rfl rfl rfl rfl⟩

/-- Witness for C8 at the concrete scenario. -/
theorem placeholder_substituted_witness :
    (extract_transcript_from_response respEmptyT).1 = PyVal.str "" ∧
    (pyStripChars ("" : String).toList).isEmpty = true ∧
    (∃ fs' logs, processOne envW jobW 1 1 ⟨"v.mp4", true⟩ fsEmpty = Except.ok (fs', logs) ∧
      fs'.txt.lookup (stemOf ⟨"v.mp4", true⟩) = Option.some placeholderText ∧
      fs'.pdf.lookup (stemOf ⟨"v.mp4", true⟩) = Option.some
        (to_pdf envW.fontEnv placeholderText ("Transcripción - " ++ pyStem "v.mp4")
          (Option.some (metaInfoStr jobW (extract_transcript_from_response respEmptyT).2.2))
          jobW.fontRegular jobW.fontBold jobW.pdfMinimal)) :=
  ⟨rfl, rfl,
    placeholder_substituted envW jobW 1 1 ⟨"v.mp4", true⟩ fsEmpty respEmptyT ""
      rfl rfl rfl rfl rfl rfl rfl⟩

/-! ### Claim C9: discovery -/

theorem lexLe_total : ∀ a b : List Char, lexLe a b = true ∨ lexLe b a = true
  | [], _ => Or.inl rfl
  | _ :: _, [] => Or.inr rfl
  | a :: as, b :: bs => by
    by_cases h : a.toNat = b.toNat
    · rcases lexLe_total as bs with ih | ih
      · exact Or.inl (by simp [lexLe, h, ih])
      · exact Or.inr (by simp [lexLe, h.symm, ih])
    · have h2 : ¬b.toNat = a.toNat := fun hh => h hh.symm
      simp only [lexLe, if_neg h, if_neg h2]
      rcases Nat.lt_or_ge a.toNat b.toNat with hlt | hge
      · exact Or.inl (by simpa [Nat.blt_eq] using hlt)
      · have hba : b.toNat < a.toNat := lt_of_le_of_ne hge h2
        exact Or.inr (by simpa [Nat.blt_eq] using hba)

theorem lexLe_trans : ∀ a b c : List Char,
    lexLe a b = true → lexLe b c = true → lexLe a c = true
  | [], _, _, _, _ => rfl
  | _ :: _, [], _, h1, _ => by simp [lexLe] at h1
  | _ :: _, _ :: _, [], _, h2 => by simp [lexLe] at h2
  | a :: as, b :: bs, c :: cs, h1, h2 => by
    simp only [lexLe] at h1 h2 ⊢
    by_cases hab : a.toNat = b.toNat <;> by_cases hbc : b.toNat = c.toNat
    · rw [if_pos hab] at h1
      rw [if_pos hbc] at h2
      rw [if_pos (hab.trans hbc)]
      exact lexLe_trans as bs cs h1 h2
    · rw [if_pos hab] at h1
      rw [if_neg hbc] at h2
      have hac : ¬a.toNat = c.toNat := fun hh => hbc (hab ▸ hh)
      rw [if_neg hac, hab]
      exact h2
    · rw [if_neg hab] at h1
      rw [if_pos hbc] at h2
      have hac : ¬a.toNat = c.toNat := fun hh => hab (hh.trans hbc.symm)
      rw [if_neg hac, ← hbc]
      exact h1
    · rw [if_neg hab] at h1
      rw [if_neg hbc] at h2
      rw [Nat.blt_eq] at h1 h2
      have hlt : a.toNat < c.toNat := h1.trans h2
      have hac : ¬a.toNat = c.toNat := Nat.ne_of_lt hlt
      rw [if_neg hac]
      simpa [Nat.blt_eq] using hlt

instance : IsTotal FileEntry fileLe :=
  ⟨fun a b => lexLe_total a.name.toList b.name.toList⟩

instance : IsTrans FileEntry fileLe :=
  ⟨fun a b c => lexLe_trans a.name.toList b.name.toList c.name.toList⟩

/-- C9: discovery selects exactly the immediate entries that are
regular files whose lower-cased extension is in the fixed video or
audio allow-list, and returns them sorted by path (code-point
lexicographic, Python's string order); everything else is ignored.
The loop of lines 304–357 then visits `discoverFiles` in list order,
so this is the processing order. -/
theorem discovery_filter_sorted (entries : List FileEntry) :
    (∀ e, e ∈ discoverFiles entries ↔
      (e ∈ entries ∧ e.isFile = true ∧
        (pyLower (pySuffix e.name) ∈ VIDEO_EXTS ∨ pyLower (pySuffix e.name) ∈ AUDIO_EXTS))) ∧
    List.Sorted fileLe (discoverFiles entries) := by
  constructor
  · intro e
    unfold discoverFiles
    rw [List.mem_insertionSort, List.mem_filter]
    simp [List.mem_append, and_assoc]
  · exact List.sorted_insertionSort fileLe _

/-! ### Claims C1 and C2: batch-level properties -/

/-- The write operations whose failure the code does NOT confine
(plain-text write, fallback payload write) succeed, and every returned
response extracts to a string transcript (a non-string transcript
would raise an uncaught `AttributeError` at line 336).  Nothing is
assumed about transcription, extraction success, `json.dump` or the
document render — those failures are the confined ones. -/
def EnvGood (env : Env) : Prop :=
  (∀ n, env.txtWriteOk n = true) ∧
  (∀ n, env.jsonDumpOk n = true ∨ env.jsonFallbackOk n = true) ∧
  (∀ p r, env.transcribe p = Option.some r →
    ∃ s, (extract_transcript_from_response r).1 = PyVal.str s)

/-- Every external operation succeeds for every file. -/
def EnvAllSuccess (env : Env) : Prop :=
  EnvGood env ∧
  (∀ p, ∃ r, env.transcribe p = Option.some r) ∧
  (∀ n, env.pdfOk n = true)

theorem finished_not_mem_resolveLogs (env : Env) (v : Bool) (src : FileEntry) :
    Msg.finished ∉ (resolveUsePath env v src).2 := by
  unfold resolveUsePath
  split
  · split <;> simp
  · simp

theorem hasAll_setTxt (fs : FS) (k : String) (v : String) (st : String)
    (h : hasAllArtifacts fs st = true) : hasAllArtifacts (fs.setTxt k v) st = true := by
  simp only [hasAllArtifacts, FS.setTxt, Bool.and_eq_true] at h ⊢
  exact ⟨⟨lookup_cons_preserve k v h.1.1, h.1.2⟩, h.2⟩

theorem hasAll_setJson (fs : FS) (k : String) (v : JsonArt) (st : String)
    (h : hasAllArtifacts fs st = true) : hasAllArtifacts (fs.setJson k v) st = true := by
  simp only [hasAllArtifacts, FS.setJson, Bool.and_eq_true] at h ⊢
  exact ⟨h.1, lookup_cons_preserve k v h.2⟩

theorem hasAll_setPdf (fs : FS) (k : String) (v : List Frag) (st : String)
    (h : hasAllArtifacts fs st = true) : hasAllArtifacts (fs.setPdf k v) st = true := by
  simp only [hasAllArtifacts, FS.setPdf, Bool.and_eq_true] at h ⊢
  exact ⟨⟨h.1.1, lookup_cons_preserve k v h.1.2⟩, h.2⟩

/-- Under `EnvGood`, one loop iteration never throws: it returns the
skip log or a log headed by the processing line, never emits the
terminal message, and only adds artifacts. -/
theorem processOne_ok (env : Env) (job : Job) (hgood : EnvGood env)
    (idx total : Nat) (src : FileEntry) (fs : FS) :
    ∃ fs' logs, processOne env job idx total src fs = Except.ok (fs', logs) ∧
      Msg.finished ∉ logs ∧
      (logs = [Msg.skipping idx total src.name] ∨
        ∃ t, logs = Msg.processing idx total src.name :: t) ∧
      (∀ st, hasAllArtifacts fs st = true → hasAllArtifacts fs' st = true) := by
  by_cases hskip : (!job.overwrite && hasAllArtifacts fs (stemOf src)) = true
  · exact ⟨fs, [Msg.skipping idx total src.name], by simp [processOne, hskip], by simp,
      Or.inl rfl, fun st h => h⟩
  · have hskip' : (!job.overwrite && hasAllArtifacts fs (stemOf src)) = false :=
      Bool.eq_false_iff.mpr hskip
    cases htr : env.transcribe (resolveUsePath env (isVideoFile src) src).1 with
    | none =>
      simp only [processOne, processBody, hskip', htr, Bool.false_eq_true, if_false]
      exact ⟨_, _, rfl, by simp [finished_not_mem_resolveLogs], Or.inr ⟨_, rfl⟩,
        fun st h => h⟩
    | some resp =>
      obtain ⟨s, hs⟩ := hgood.2.2 _ _ htr
      have htxt := hgood.1 src.name
      cases hdump : env.jsonDumpOk src.name with
      | true =>
        cases hpdf : env.pdfOk src.name <;>
          simp only [processOne, processBody, afterResponse, persistArtifacts,
            writeJsonStep, hskip', htr, hs, htxt, hdump, hpdf, Bool.false_eq_true,
            if_false, if_true, ite_true, ite_false]
        · exact ⟨_, _, rfl, by simp [finished_not_mem_resolveLogs], Or.inr ⟨_, rfl⟩,
            fun st h => hasAll_setTxt _ _ _ _ (hasAll_setJson _ _ _ _ h)⟩
        · exact ⟨_, _, rfl, by simp [finished_not_mem_resolveLogs], Or.inr ⟨_, rfl⟩,
            fun st h => hasAll_setPdf _ _ _ _ (hasAll_setTxt _ _ _ _ (hasAll_setJson _ _ _ _ h))⟩
      | false =>
        have hfb : env.jsonFallbackOk src.name = true :=
          (hgood.2.1 src.name).resolve_left (by simp [hdump])
        cases hpdf : env.pdfOk src.name <;>
          simp only [processOne, processBody, afterResponse, persistArtifacts,
            writeJsonStep, hskip', htr, hs, htxt, hdump, hfb, hpdf, Bool.false_eq_true,
            if_false, if_true, ite_true, ite_false]
        · exact ⟨_, _, rfl, by simp [finished_not_mem_resolveLogs], Or.inr ⟨_, rfl⟩,
            fun st h => hasAll_setTxt _ _ _ _ (hasAll_setJson _ _ _ _ h)⟩
        · exact ⟨_, _, rfl, by simp [finished_not_mem_resolveLogs], Or.inr ⟨_, rfl⟩,
            fun st h => hasAll_setPdf _ _ _ _ (hasAll_setTxt _ _ _ _ (hasAll_setJson _ _ _ _ h))⟩

/-- Under `EnvAllSuccess`, one iteration additionally leaves the file
with all three artifacts present. -/
theorem processOne_allsuccess (env : Env) (job : Job) (hall : EnvAllSuccess env)
    (idx total : Nat) (src : FileEntry) (fs : FS) :
    ∃ fs' logs, processOne env job idx total src fs = Except.ok (fs', logs) ∧
      hasAllArtifacts fs' (stemOf src) = true ∧
      (∀ st, hasAllArtifacts fs st = true → hasAllArtifacts fs' st = true) := by
  by_cases hskip : (!job.overwrite && hasAllArtifacts fs (stemOf src)) = true
  · have hh : hasAllArtifacts fs (stemOf src) = true := by
      have h := hskip
      simp only [Bool.and_eq_true] at h
      exact h.2
    exact ⟨fs, [Msg.skipping idx total src.name], by simp [processOne, hskip], hh,
      fun st h => h⟩
  · have hskip' : (!job.overwrite && hasAllArtifacts fs (stemOf src)) = false :=
      Bool.eq_false_iff.mpr hskip
    obtain ⟨resp, htr⟩ := hall.2.1 (resolveUsePath env (isVideoFile src) src).1
    obtain ⟨s, hs⟩ := hall.1.2.2 _ _ htr
    have htxt := hall.1.1 src.name
    have hpdf := hall.2.2 src.name
    cases hdump : env.jsonDumpOk src.name with
    | true =>
      simp only [processOne, processBody, afterResponse, persistArtifacts,
        writeJsonStep, hskip', htr, hs, htxt, hdump, hpdf, Bool.false_eq_true,
        if_false, if_true, ite_true, ite_false]
      exact ⟨_, _, rfl,
        by simp [hasAllArtifacts, FS.setTxt, FS.setJson, FS.setPdf, lookup_cons_self],
        fun st h => hasAll_setPdf _ _ _ _ (hasAll_setTxt _ _ _ _ (hasAll_setJson _ _ _ _ h))⟩
    | false =>
      have hfb : env.jsonFallbackOk src.name = true :=
        (hall.1.2.1 src.name).resolve_left (by simp [hdump])
      simp only [processOne, processBody, afterResponse, persistArtifacts,
        writeJsonStep, hskip', htr, hs, htxt, hdump, hfb, hpdf, Bool.false_eq_true,
        if_false, if_true, ite_true, ite_false]
      exact ⟨_, _, rfl,
        by simp [hasAllArtifacts, FS.setTxt, FS.setJson, FS.setPdf, lookup_cons_self],
        fun st h => hasAll_setPdf _ _ _ _ (hasAll_setTxt _ _ _ _ (hasAll_setJson _ _ _ _ h))⟩

/-- Under `EnvGood`, the loop never throws, ends with exactly one
terminal message, and visits every file (each gets its skip or
processing line). -/
theorem processFiles_ok (env : Env) (job : Job) (hgood : EnvGood env) :
    ∀ (files : List FileEntry) (idx total : Nat) (fs : FS),
      ∃ fs' logs, processFiles env job files idx total fs = Except.ok (fs', logs) ∧
        logs.getLast? = Option.some Msg.finished ∧
        logs.count Msg.finished = 1 ∧
        (∀ src ∈ files, ∃ i, Msg.skipping i total src.name ∈ logs ∨
          Msg.processing i total src.name ∈ logs)
  | [], idx, total, fs => ⟨fs, [Msg.finished], rfl, rfl, rfl, by simp⟩
  | src :: rest, idx, total, fs => by
    obtain ⟨fs1, l1, h1, hnf, hshape, _⟩ := processOne_ok env job hgood idx total src fs
    obtain ⟨fs2, l2, h2, hlast, hcount, hmem⟩ :=
      processFiles_ok env job hgood rest (idx + 1) total fs1
    have hl2ne : l2 ≠ [] := by
      intro h
      rw [h] at hlast
      cases hlast
    refine ⟨fs2, l1 ++ l2, ?_, ?_, ?_, ?_⟩
    · simp only [processFiles, h1, h2]
    · rw [List.getLast?_append, hlast]
      rfl
    · rw [List.count_append, List.count_eq_zero.mpr hnf, hcount]
    · intro s hsmem
      rw [List.mem_cons] at hsmem
      rcases hsmem with rfl | hsmem
      · refine ⟨idx, ?_⟩
        rcases hshape with h | ⟨t, h⟩
        · exact Or.inl (by rw [h]; exact List.mem_append_left _ (by simp))
        · exact Or.inr (by rw [h]; exact List.mem_append_left _ (by simp))
      · obtain ⟨i, hi⟩ := hmem s hsmem
        exact ⟨i, hi.imp (List.mem_append_right l1) (List.mem_append_right l1)⟩

/-- Under `EnvAllSuccess`, the loop succeeds and leaves every visited
file with a complete artifact set. -/
theorem processFiles_allsuccess (env : Env) (job : Job) (hall : EnvAllSuccess env) :
    ∀ (files : List FileEntry) (idx total : Nat) (fs : FS),
      ∃ fs' logs, processFiles env job files idx total fs = Except.ok (fs', logs) ∧
        (∀ src ∈ files, hasAllArtifacts fs' (stemOf src) = true) ∧
        (∀ st, hasAllArtifacts fs st = true → hasAllArtifacts fs' st = true)
  | [], idx, total, fs => ⟨fs, [Msg.finished], rfl, by simp, fun st h => h⟩
  | src :: rest, idx, total, fs => by
    obtain ⟨fs1, l1, h1, hall1, hmono1⟩ := processOne_allsuccess env job hall idx total src fs
    obtain ⟨fs2, l2, h2, hall2, hmono2⟩ :=
      processFiles_allsuccess env job hall rest (idx + 1) total fs1
    refine ⟨fs2, l1 ++ l2, by simp only [processFiles, h1, h2], ?_, fun st h => hmono2 st (hmono1 st h)⟩
    intro s hsmem
    rw [List.mem_cons] at hsmem
    rcases hsmem with rfl | hsmem
    · exact hmono2 _ hall1
    · exact hall2 s hsmem

/-- The log of a loop run that skips every file (spec-side description
for the idempotence half of C2). -/
def allSkipLogs : List FileEntry → Nat → Nat → List Msg
  | [], _, _ => [Msg.finished]
  | s :: r, idx, total => Msg.skipping idx total s.name :: allSkipLogs r (idx + 1) total

/-- With overwrite disabled and all artifacts already present for every
file, the loop writes nothing and only emits skip lines. -/
theorem processFiles_skipAll (env : Env) (job : Job) (how : job.overwrite = false) :
    ∀ (files : List FileEntry) (idx total : Nat) (fs : FS),
      (∀ src ∈ files, hasAllArtifacts fs (stemOf src) = true) →
      processFiles env job files idx total fs = Except.ok (fs, allSkipLogs files idx total)
  | [], idx, total, fs, _ => rfl
  | src :: rest, idx, total, fs, h => by
    have hskip : (!job.overwrite && hasAllArtifacts fs (stemOf src)) = true := by
      simp [how, h src (by simp)]
    have h1 : processOne env job idx total src fs =
        Except.ok (fs, [Msg.skipping idx total src.name]) := by
      simp [processOne, hskip]
    have h2 := processFiles_skipAll env job how rest (idx + 1) total fs
      (fun s hs => h s (List.mem_cons_of_mem _ hs))
    simp only [processFiles, h1, h2, allSkipLogs]
    rfl

/-- C1 counterexample environment: a valid source directory with one
video file; everything succeeds except the (unguarded) plain-text
write. -/
def envC1bad : Env where
  inDirExists := true
  inDirIsDir := true
  entries := [⟨"v.mp4", true⟩]
  ffmpegOk := false
  extractOk := fun _ => true
  transcribe := fun _ => Option.some respUno
  jsonDumpOk := fun _ => true
  jsonFallbackOk := fun _ => true
  txtWriteOk := fun _ => false
  pdfOk := fun _ => true
  fontEnv := ⟨Option.none, true, fun _ => true, "T"⟩

/-- C1 counterexample: the batch call raises even though the source
directory exists and is a directory — the plain-text write failure
(line 346, outside any handler) aborts the whole run instead of being
confined to the current file. -/
theorem batch_aborts_on_txt_write_failure :
    envC1bad.inDirExists = true ∧ envC1bad.inDirIsDir = true ∧
    process_videos envC1bad jobW fsEmpty = Except.error PyErr.ioError :=
  ⟨rfl, rfl, rfl⟩

/-- C1 amended: provided the plain-text writes and the fallback payload
writes succeed and transcripts extract to strings (`EnvGood`), the
batch raises exactly when the source directory is missing or not a
directory; under a valid directory with at least one discovered file,
every other failure (audio extraction, transcription, primary payload
serialization, document rendering) is confined: the run returns
normally, every file gets its per-file progress line, and the log ends
with the single terminal completion message. -/
theorem batch_error_confinement (env : Env) (job : Job) (fs0 : FS) (hgood : EnvGood env) :
    ((env.inDirExists && env.inDirIsDir) = false →
      process_videos env job fs0 = Except.error PyErr.fileNotFound) ∧
    ((env.inDirExists && env.inDirIsDir) = true → discoverFiles env.entries ≠ [] →
      ∃ fs' logs, process_videos env job fs0 = Except.ok (fs', logs) ∧
        logs.getLast? = Option.some Msg.finished ∧
        logs.count Msg.finished = 1 ∧
        (∀ src ∈ discoverFiles env.entries, ∃ i,
          Msg.skipping i (discoverFiles env.entries).length src.name ∈ logs ∨
          Msg.processing i (discoverFiles env.entries).length src.name ∈ logs)) := by
  constructor
  · intro hdir
    simp [process_videos, hdir]
  · intro hdir hne
    obtain ⟨fs', logs, hrun, hlast, hcount, hmem⟩ :=
      processFiles_ok env job hgood (discoverFiles env.entries) 1
        (discoverFiles env.entries).length fs0
    have hlogsne : logs ≠ [] := by
      intro h
      rw [h] at hlast
      cases hlast
    have hnemp : (discoverFiles env.entries).isEmpty = false := by
      simpa [List.isEmpty_iff] using hne
    refine ⟨fs', (if env.ffmpegOk then [] else [Msg.ffmpegWarning]) ++
      Msg.found (discoverFiles env.entries).length :: logs, ?_, ?_, ?_, ?_⟩
    · simp only [process_videos, hdir, Bool.not_true, Bool.false_eq_true, if_false,
        hnemp, hrun]
    · rw [List.getLast?_append]
      have : (Msg.found (discoverFiles env.entries).length :: logs).getLast? =
          Option.some Msg.finished := by
        rw [List.getLast?_cons, hlast]
        rfl
      rw [this]
      rfl
    · rw [List.count_append]
      have hw : ((if env.ffmpegOk then ([] : List Msg) else [Msg.ffmpegWarning])).count
          Msg.finished = 0 := by
        cases env.ffmpegOk <;> simp
      rw [hw, List.count_cons, hcount]
      simp
    · intro src hsrc
      obtain ⟨i, hi⟩ := hmem src hsrc
      exact ⟨i, hi.imp
        (fun h => List.mem_append_right _ (List.mem_cons_of_mem _ h))
        (fun h => List.mem_append_right _ (List.mem_cons_of_mem _ h))⟩

/-- C1 witness environment: valid directory, one file, transcription
always raises (a confined per-file failure). -/
def envC1w : Env where
  inDirExists := true
  inDirIsDir := true
  entries := [⟨"v.mp4", true⟩]
  ffmpegOk := true
  extractOk := fun _ => false
  transcribe := fun _ => Option.none
  jsonDumpOk := fun _ => true
  jsonFallbackOk := fun _ => true
  txtWriteOk := fun _ => true
  pdfOk := fun _ => true
  fontEnv := ⟨Option.none, true, fun _ => true, "T"⟩

/-- Witness for C1: despite the transcription failure on the only
file, the batch returns normally and ends with the terminal message. -/
theorem batch_error_confinement_witness :
    EnvGood envC1w ∧
    (envC1w.inDirExists && envC1w.inDirIsDir) = true ∧
    discoverFiles envC1w.entries ≠ [] ∧
    (∃ fs' logs, process_videos envC1w jobW fsEmpty = Except.ok (fs', logs) ∧
      logs.getLast? = Option.some Msg.finished ∧
      logs.count Msg.finished = 1 ∧
      (∀ src ∈ discoverFiles envC1w.entries, ∃ i,
        Msg.skipping i (discoverFiles envC1w.entries).length src.name ∈ logs ∨
        Msg.processing i (discoverFiles envC1w.entries).length src.name ∈ logs)) := by
  have hgood : EnvGood envC1w :=
    ⟨fun n => rfl, fun n => Or.inl rfl, fun p r h => by cases h⟩
  exact ⟨hgood, rfl, by decide,
    (batch_error_confinement envC1w jobW fsEmpty hgood).2 rfl (by decide)⟩

/-- C2: with overwrite disabled, a file whose three artifacts all exist
is skipped with no change to the store; and after a fully successful
run, running the whole batch again on the resulting store changes
nothing and skips every file — the second run's log is exactly the
all-skip log. -/
theorem skip_policy_idempotent (env : Env) (job : Job) (fs0 : FS)
    (how : job.overwrite = false)
    (hall : EnvAllSuccess env)
    (hdir : (env.inDirExists && env.inDirIsDir) = true)
    (hne : discoverFiles env.entries ≠ []) :
    (∀ idx total src fs, hasAllArtifacts fs (stemOf src) = true →
      processOne env job idx total src fs = Except.ok (fs, [Msg.skipping idx total src.name])) ∧
    (∃ fs1 logs1, process_videos env job fs0 = Except.ok (fs1, logs1) ∧
      process_videos env job fs1 = Except.ok (fs1,
        (if env.ffmpegOk then [] else [Msg.ffmpegWarning]) ++
          Msg.found (discoverFiles env.entries).length ::
            allSkipLogs (discoverFiles env.entries) 1 (discoverFiles env.entries).length)) := by
  constructor
  · intro idx total src fs h
    simp [processOne, how, h]
  · obtain ⟨fs1, logs1, hrun1, hall1, _⟩ :=
      processFiles_allsuccess env job hall (discoverFiles env.entries) 1
        (discoverFiles env.entries).length fs0
    have hnemp : (discoverFiles env.entries).isEmpty = false := by
      simpa [List.isEmpty_iff] using hne
    have hrun2 := processFiles_skipAll env job how (discoverFiles env.entries) 1
      (discoverFiles env.entries).length fs1 hall1
    refine ⟨fs1, (if env.ffmpegOk then [] else [Msg.ffmpegWarning]) ++
      Msg.found (discoverFiles env.entries).length :: logs1, ?_, ?_⟩
    · simp only [process_videos, hdir, Bool.not_true, Bool.false_eq_true, if_false,
        hnemp, hrun1]
    · simp only [process_videos, hdir, Bool.not_true, Bool.false_eq_true, if_false,
        hnemp, hrun2]

/-- Witness for C2 at the concrete all-success scenario `envW`. -/
theorem skip_policy_idempotent_witness :
    jobW.overwrite = false ∧
    EnvAllSuccess envW ∧
    (envW.inDirExists && envW.inDirIsDir) = true ∧
    discoverFiles envW.entries ≠ [] ∧
    ((∀ idx total src fs, hasAllArtifacts fs (stemOf src) = true →
      processOne envW jobW idx total src fs = Except.ok (fs, [Msg.skipping idx total src.name])) ∧
    (∃ fs1 logs1, process_videos envW jobW fsEmpty = Except.ok (fs1, logs1) ∧
      process_videos envW jobW fs1 = Except.ok (fs1,
        (if envW.ffmpegOk then [] else [Msg.ffmpegWarning]) ++
          Msg.found (discoverFiles envW.entries).length ::
            allSkipLogs (discoverFiles envW.entries) 1 (discoverFiles envW.entries).length))) := by
  have hall : EnvAllSuccess envW :=
    ⟨⟨fun n => rfl, fun n => Or.inl rfl, fun p r h => ⟨"", by cases h; rfl⟩⟩,
      fun p => ⟨respEmptyT, rfl⟩, fun n => rfl⟩
  exact ⟨rfl, hall, rfl, by decide,
    skip_policy_idempotent envW jobW fsEmpty rfl hall rfl (by decide)⟩

end BatchTranscribe
